import Mathlib

set_option maxRecDepth 8000

/-!
Verification of the scraper-api repository.

The development shallowly embeds the string manipulation and control flow of
the repository's TypeScript sources (src/services/Scraper.ts,
src/controllers/ScraperController.ts, the ScraperAPI service and the router).
JavaScript strings are modelled as lists of characters; fallible asynchronous
calls are modelled by Except values supplied as inputs; the mutable
browser/page fields of the Scraper class are modelled as an explicit state
record threaded through the operations.
-/

/-! ### JavaScript string primitives, modelled over lists of characters -/

/-- Model of the JavaScript whitespace test used by trim and parseInt. -/
def jsWhitespace (c : Char) : Bool := c.isWhitespace

/-- Model of String.prototype.trimStart (also the whitespace skipping that
parseInt performs). -/
def jsTrimLeft (s : List Char) : List Char := s.dropWhile jsWhitespace

/-- Model of String.prototype.trim: drop whitespace on both ends. -/
def jsTrim (s : List Char) : List Char :=
  ((s.dropWhile jsWhitespace).reverse.dropWhile jsWhitespace).reverse

/-- Model of String.prototype.split with a single-character separator:
splits at every occurrence, keeping empty pieces, and yields one (empty)
piece for the empty string, exactly as in JavaScript. -/
def jsSplitChar (sep : Char) : List Char → List (List Char)
  | [] => [[]]
  | c :: cs =>
    let rest := jsSplitChar sep cs
    if c = sep then [] :: rest
    else
      match rest with
      | [] => [[c]]
      | r :: rs => (c :: r) :: rs

/-- Model of String.prototype.replace with a single-character pattern and an
empty replacement: JavaScript replace removes only the FIRST occurrence. -/
def removeFirstChar (t : Char) : List Char → List Char
  | [] => []
  | c :: cs => if c = t then cs else c :: removeFirstChar t cs

/-- Numeric value of a character as a radix-16 digit, if it is one. -/
def hexDigitVal (c : Char) : Option Nat :=
  if c.isDigit then some (c.toNat - 48)
  else if 'a' ≤ c ∧ c ≤ 'f' then some (c.toNat - 87)
  else if 'A' ≤ c ∧ c ≤ 'F' then some (c.toNat - 55)
  else none

/-- Accumulate the value of a digit string in the given base. -/
def digitsVal (base : Nat) (ds : List Char) : Nat :=
  ds.foldl (fun acc d => acc * base + ((hexDigitVal d).getD 0)) 0

/-- Leading digits of the given base. -/
def takeDigits (base : Nat) (s : List Char) : List Char :=
  s.takeWhile (fun c =>
    match hexDigitVal c with
    | some v => decide (v < base)
    | none => false)

/-- Model of JavaScript parseInt with no radix argument: skip whitespace,
read an optional sign, honour a 0x/0X hexadecimal marker, consume leading
digits and ignore the rest; none models the NaN result when no digit is
found. -/
def jsParseInt (s : List Char) : Option Int :=
  let s1 := jsTrimLeft s
  let signAndRest : Int × List Char :=
    match s1 with
    | '-' :: r => (-1, r)
    | '+' :: r => (1, r)
    | r => (1, r)
  let baseAndRest : Nat × List Char :=
    match signAndRest.2 with
    | '0' :: 'x' :: r => (16, r)
    | '0' :: 'X' :: r => (16, r)
    | r => (10, r)
  let ds := takeDigits baseAndRest.1 baseAndRest.2
  if ds.isEmpty then none
  else some (signAndRest.1 * (digitsVal baseAndRest.1 ds : Int))

/-- Model of String.prototype.startsWith. -/
def startsWithL (p s : List Char) : Bool := p.isPrefixOf s

/-- Model of String.prototype.endsWith. -/
def endsWithL (p s : List Char) : Bool := p.reverse.isPrefixOf s.reverse

/-! ### scrapePoster, srcset branch (Scraper.ts lines 476-506)

The page-evaluation callback splits the srcset attribute on commas, parses
each entry into a url and a width descriptor, sorts the entries by
descending width with Array.prototype.sort (stable per the ECMAScript
specification) and returns the first entry's url when its width is positive
and the url is truthy and absolute. -/

/-- One parsed srcset entry: url and width, where width = none models the
NaN produced by parseInt on a non-numeric descriptor. -/
structure SrcEntry where
  url : List Char
  width : Option Int
deriving DecidableEq

/-- Model of the per-entry parser in scrapePoster: trim the entry, split on
single spaces, take parts[0] as the url, parts[1] (when truthy) as the
descriptor, and parse the descriptor with its first "w" removed; a falsy
descriptor yields width 0. -/
def parseSrcsetEntry (entry : List Char) : SrcEntry :=
  let parts := jsSplitChar ' ' (jsTrim entry)
  let url := jsTrim (parts.headD [])
  let descriptor :=
    match (parts.drop 1).headD [] with
    | [] => ([] : List Char)
    | p => jsTrim p
  let width : Option Int :=
    match descriptor with
    | [] => some 0
    | d => jsParseInt (removeFirstChar 'w' d)
  ⟨url, width⟩

/-- All parsed entries of a srcset string: split on commas, map the parser. -/
def parseSrcset (srcset : List Char) : List SrcEntry :=
  (jsSplitChar ',' srcset).map parseSrcsetEntry

/-- Model of the comparator (a, b) => b.width - a.width; a NaN result of the
subtraction is treated as +0 by the ECMAScript SortCompare operation. -/
def jsCompareWidth (a b : SrcEntry) : Int :=
  match b.width, a.width with
  | some wb, some wa => wb - wa
  | _, _ => 0

/-- Insert an element (originally earlier in the array) into an already
sorted list, before the first element it compares ≤ 0 against; this is the
stable placement mandated for Array.prototype.sort. -/
def insertSorted (x : SrcEntry) : List SrcEntry → List SrcEntry
  | [] => [x]
  | y :: ys => if jsCompareWidth x y ≤ 0 then x :: y :: ys else y :: insertSorted x ys

/-- Stable sort of the srcset entries with the descending-width comparator,
modelling srcsetEntries.sort((a, b) => b.width - a.width). -/
def sortEntries : List SrcEntry → List SrcEntry
  | [] => []
  | x :: xs => insertSorted x (sortEntries xs)

/-- Truthiness-and-positivity test highestQuality.width > 0 (false on NaN). -/
def widthPos : Option Int → Bool
  | some w => decide (0 < w)
  | none => false

/-- Model of the whole srcset branch of scrapePoster: parse, sort, take the
first element, and return its url when the width is positive and the url is
truthy and starts with "http"; none models falling through to the direct
src fallback. -/
def posterFromSrcset (srcset : List Char) : Option (List Char) :=
  match (sortEntries (parseSrcset srcset)).head? with
  | none => none
  | some h =>
    if widthPos h.width && !h.url.isEmpty && startsWithL ("http".data) h.url then
      some h.url
    else none

/-- The width of an entry as an integer, meaningful when no entry width is
NaN. -/
def entryW (e : SrcEntry) : Int := e.width.getD 0

/-- The first entry of the list attaining the maximum width: a later entry
replaces the current best only when strictly wider. -/
def firstMax : List SrcEntry → Option SrcEntry
  | [] => none
  | x :: xs =>
    match firstMax xs with
    | none => some x
    | some m => if entryW x < entryW m then some m else some x

/-! ### scrapeTrending validity filter (Scraper.ts lines 402-412) -/

/-- One raw trending item as produced by the in-page evaluation of
scrapeTrending (JavaScript strings modelled as character lists). -/
structure TrendingItem where
  imdbId : List Char
  title : List Char
  year : List Char := []
  runtime : List Char := []
  rating : List Char := []
  imdbRating : List Char := []
  imdbVotes : List Char := []
  metascore : List Char := []
  plot : List Char := []
  director : List Char := []
  stars : List (List Char) := []
  posterUrl : List Char := []
  posterAlt : List Char := []
  movieUrl : List Char := []
  watchlistId : List Char := []
  ranking : List Char := []
deriving DecidableEq

/-- The filter callback of scrapeTrending: movie && movie.title &&
movie.title.trim() !== "" && movie.imdbId && movie.imdbId.startsWith("tt");
items are non-null records here, so the movie test is omitted. -/
def trendingValid (movie : TrendingItem) : Bool :=
  !movie.title.isEmpty && !(jsTrim movie.title).isEmpty &&
    !movie.imdbId.isEmpty && startsWithL ("tt".data) movie.imdbId

/-- The post-filter applied by scrapeTrending before returning. -/
def validMovies (movieList : List TrendingItem) : List TrendingItem :=
  movieList.filter trendingValid

/-- Retention predicate in the words of the specification: non-empty title
after trimming, and an identifier starting with the literal "tt". -/
def specRetained (movie : TrendingItem) : Bool :=
  !(jsTrim movie.title).isEmpty && startsWithL ("tt".data) movie.imdbId

/-! ### scrapeVideoSources deduplication (Scraper.ts lines 676-683) -/

/-- One collected video source entry; entries are compared solely by src. -/
structure VideoSource where
  src : List Char
  type : List Char := []
  poster : List Char := []
  className : List Char := []
  id : List Char := []
  isIMDbPlayer : Bool := false
deriving DecidableEq

/-- Model of self.findIndex(s => s.src === source.src): index of the first
entry with the given src, none when absent (JavaScript returns -1). -/
def findIdxSrc (u : List Char) : List VideoSource → Option Nat
  | [] => none
  | x :: xs => if x.src = u then some 0 else (findIdxSrc u xs).map (· + 1)

/-- Model of allSources.filter((source, index, self) => index ===
self.findIndex(s => s.src === source.src)): walk the array with its index,
keeping an element exactly when its index is the first index of its src in
the whole array self. -/
def uniqueAux (self : List VideoSource) : Nat → List VideoSource → List VideoSource
  | _, [] => []
  | i, x :: xs =>
    if findIdxSrc x.src self = some i then x :: uniqueAux self (i + 1) xs
    else uniqueAux self (i + 1) xs

/-- The deduplication step of scrapeVideoSources applied to the array. -/
def uniqueSources (allSources : List VideoSource) : List VideoSource :=
  uniqueAux allSources 0 allSources

/-! ### ScraperAPIService.scrapeWithRetry (unnamed service file, lines 70-95)

The fetch outcome of each attempt k is supplied as input (fetch k); the
result carries the value or the thrown error, together with the list of
waited delays in milliseconds. The error component Option models that with
maxRetries = 0 the method throws the undefined lastError. -/

/-- The retry loop body over the list of remaining attempt numbers: on
success return at once; on failure record lastError, and when further
attempts remain wait 2 ^ attempt * 1000 milliseconds before continuing. -/
def retryLoop (fetch : Nat → Except (List Char) (List Char)) :
    List Nat → Option (List Char) → Except (Option (List Char)) (List Char) × List Nat
  | [], lastErr => (Except.error lastErr, [])
  | a :: rest, _ =>
    match fetch a with
    | Except.ok h => (Except.ok h, [])
    | Except.error e =>
      if rest.isEmpty then (Except.error (some e), [])
      else
        let r := retryLoop fetch rest (some e)
        (r.1, 2 ^ a * 1000 :: r.2)

/-- scrapeWithRetry(url, maxRetries): attempts are numbered 1..maxRetries. -/
def scrapeWithRetry (fetch : Nat → Except (List Char) (List Char)) (maxRetries : Nat) :
    Except (Option (List Char)) (List Char) × List Nat :=
  retryLoop fetch (List.range' 1 maxRetries) none

/-! ### Scraper state and close() (Scraper.ts lines 3-5 and 942-953) -/

/-- The two mutable fields of the Scraper class; handles are abstracted to
natural numbers. -/
structure ScraperState where
  browser : Option Nat
  page : Option Nat
deriving DecidableEq

/-- The body of close() before its try/catch: when a browser is present,
run the teardown browser.close() (outcome supplied as input); only after a
successful teardown are both fields set to null. -/
def closeInner (st : ScraperState) (teardown : Except (List Char) Unit) :
    Except (List Char) ScraperState :=
  match st.browser with
  | none => Except.ok st
  | some _ =>
    match teardown with
    | Except.error e => Except.error e
    | Except.ok _ => Except.ok { browser := none, page := none }

/-- close() with its catch: a teardown error is logged and swallowed,
leaving the state as it was. The return type carries no error: close never
throws. -/
def closeModel (st : ScraperState) (teardown : Except (List Char) Unit) : ScraperState :=
  match closeInner st teardown with
  | Except.ok st2 => st2
  | Except.error _ => st

/-! ### start() (Scraper.ts lines 35-79)

Outcomes of the two launch calls, newPage, and the navigation/settling
steps are inputs; the result is the final state paired with the normal or
thrown outcome. On any failure the catch block runs close() and rethrows. -/

/-- Model of start(link). -/
def startModel (st : ScraperState) (launch1 launch2 : Except (List Char) Nat)
    (np : Except (List Char) Nat) (nav : Except (List Char) Unit)
    (teardown : Except (List Char) Unit) : ScraperState × Except (List Char) Unit :=
  match (match launch1 with
         | Except.ok b => Except.ok b
         | Except.error _ => launch2 : Except (List Char) Nat) with
  | Except.error e => (closeModel st teardown, Except.error e)
  | Except.ok b =>
    let st1 : ScraperState := { st with browser := some b }
    match np with
    | Except.error e => (closeModel st1 teardown, Except.error e)
    | Except.ok p =>
      let st2 : ScraperState := { st1 with page := some p }
      match nav with
      | Except.error e => (closeModel st2 teardown, Except.error e)
      | Except.ok _ => (st2, Except.ok ())

/-! ### startWithRetry (Scraper.ts lines 82-198) -/

/-- Inner ordered fallback over the three launch strategies: the first
successful strategy supplies the browser; when every strategy throws, the
attempt throws the composed error. -/
def launchWithStrategies : List (Except (List Char) Nat) → Except (List Char) Nat
  | [] => Except.error ("All browser launch strategies failed".data)
  | s :: rest =>
    match s with
    | Except.ok b => Except.ok b
    | Except.error _ => launchWithStrategies rest

/-- Externally supplied outcomes of one attempt of startWithRetry: the
launch strategy results in order, the newPage call, the direct navigation,
the gateway navigation fallback, and the teardown used by close() in the
catch path. -/
structure AttemptEnv where
  strategies : List (Except (List Char) Nat)
  newPage : Except (List Char) Nat
  navDirect : Except (List Char) Unit
  navGateway : Except (List Char) Unit
  teardown : Except (List Char) Unit

/-- One attempt body of startWithRetry: launch via the strategy fallback,
assign the browser field, open the page and assign the page field, then
navigate directly, falling back to the gateway navigation on failure.
Errors are returned to the outer loop, which closes the session. -/
def runAttempt (st : ScraperState) (env : AttemptEnv) :
    ScraperState × Except (List Char) Unit :=
  match launchWithStrategies env.strategies with
  | Except.error e => (st, Except.error e)
  | Except.ok b =>
    let st1 : ScraperState := { st with browser := some b }
    match env.newPage with
    | Except.error e => (st1, Except.error e)
    | Except.ok p =>
      let st2 : ScraperState := { st1 with page := some p }
      match env.navDirect with
      | Except.ok _ => (st2, Except.ok ())
      | Except.error _ =>
        match env.navGateway with
        | Except.ok _ => (st2, Except.ok ())
        | Except.error e => (st2, Except.error e)

/-- The outer attempt loop of startWithRetry over the list of remaining
attempt numbers: a successful attempt returns at once; a failed attempt is
cleaned up with close() and the loop continues (the linear backoff delay
does not affect state or result and is not traced). The third component
counts the attempts performed. -/
def startWithRetryLoop (envs : Nat → AttemptEnv) :
    ScraperState → List Nat → ScraperState × Except (List Char) Unit × Nat
  | st, [] =>
    (st, Except.error ("Failed to start browser after max attempts".data), 0)
  | st, a :: rest =>
    let r := runAttempt st (envs a)
    match r.2 with
    | Except.ok _ => (r.1, Except.ok (), 1)
    | Except.error _ =>
      let stClosed := closeModel r.1 (envs a).teardown
      let next := startWithRetryLoop envs stClosed rest
      (next.1, next.2.1, next.2.2 + 1)

/-- startWithRetry(link, maxRetries): attempts numbered 1..maxRetries. -/
def startWithRetryModel (envs : Nat → AttemptEnv) (st : ScraperState)
    (maxRetries : Nat) : ScraperState × Except (List Char) Unit × Nat :=
  startWithRetryLoop envs st (List.range' 1 maxRetries)

/-- The state invariant of the Scraper object: a non-null page implies a
non-null browser. -/
def scraperInv (st : ScraperState) : Prop := st.page.isSome → st.browser.isSome

/-! ### scrapeTrending result policy (Scraper.ts lines 273-427) and the
trending endpoint (ScraperController.ts lines 44-106)

The outcome parameter stands for everything up to and including the in-page
evaluation: an error value covers a session-start, selector-wait or
evaluation failure, an ok value carries the raw extracted list. -/

/-- scrapeTrending after the evaluation: validate that the list is a
non-empty array, apply the validity filter and return it; any thrown error
is caught and an empty array is returned instead. -/
def scrapeTrendingModel (outcome : Except (List Char) (List TrendingItem)) :
    List TrendingItem :=
  match outcome with
  | Except.error _ => []
  | Except.ok movieList =>
    if movieList.isEmpty then [] else validMovies movieList

/-- Shape of the trending endpoint's JSON reply. -/
structure TrendingResponse where
  status : Nat
  success : Bool
  error : List Char
  message : List Char
  data : List TrendingItem
  count : Nat
deriving DecidableEq

/-- The controller's own validity filter: non-null object with a non-empty
trimmed title (it does not re-check the identifier). -/
def controllerValidFilter (l : List TrendingItem) : List TrendingItem :=
  l.filter (fun movie => !movie.title.isEmpty && !(jsTrim movie.title).isEmpty)

/-- scrapeTrendingMovies: an empty scraper result raises ApiError 500 "No
trending movies found on IMDb"; a result emptied by the controller's filter
raises ApiError 500 "No valid trending movies data found"; both are caught
and rendered as a 500 reply; otherwise a 200 reply with the filtered data. -/
def scrapeTrendingMovies (outcome : Except (List Char) (List TrendingItem)) :
    TrendingResponse :=
  let movieList := scrapeTrendingModel outcome
  if movieList.isEmpty then
    { status := 500, success := false,
      error := "Failed to scrape trending movies".data,
      message := "No trending movies found on IMDb".data, data := [], count := 0 }
  else
    let validMovies2 := controllerValidFilter movieList
    if validMovies2.isEmpty then
      { status := 500, success := false,
        error := "Failed to scrape trending movies".data,
        message := "No valid trending movies data found".data, data := [], count := 0 }
    else
      { status := 200, success := true, error := [], message := [],
        data := validMovies2, count := validMovies2.length }

/-! ### scrapeMovie endpoint (ScraperController.ts lines 12-42) -/

/-- Shape of the movie endpoint's JSON reply. -/
structure MovieResponse where
  status : Nat
  success : Bool
  error : Option (List Char)
  exampleHint : Option (List Char)
  message : Option (List Char)
  data : Option (List Char)
deriving DecidableEq

/-- JavaScript truthiness of an optional string: undefined and "" are
falsy. -/
def jsTruthyStr : Option (List Char) → Bool
  | none => false
  | some l => !l.isEmpty

/-- scrapeMovie: a falsy imdbid field is answered 400 with error and example
fields before the scraper is invoked; otherwise the scrape outcome (supplied
as input) is rendered as 200 or 500. The boolean records whether the call
into the scraper (and hence browser-session creation) happened. -/
def scrapeMovie (imdbid : Option (List Char))
    (scrapeResult : Except (List Char) (List Char)) : MovieResponse × Bool :=
  if !jsTruthyStr imdbid then
    ({ status := 400, success := false,
       error := some ("imdbid is required".data),
       exampleHint := some ("imdbid tt1234567".data),
       message := none, data := none }, false)
  else
    match scrapeResult with
    | Except.ok d =>
      ({ status := 200, success := true, error := none, exampleHint := none,
         message := none, data := some d }, true)
    | Except.error m =>
      ({ status := 500, success := false,
         error := some ("Failed to scrape movie data".data),
         exampleHint := none, message := some m, data := none }, true)

/-! ### scrapePoster exception fallback (Scraper.ts lines 534-558) -/

/-- An image element candidate, as found by one fallback selector. -/
structure ImgEl where
  src : List Char
deriving DecidableEq

/-- The fallback page evaluation of scrapePoster: walk the fallback
selectors in order (cands holds each selector's querySelector result) and
return the first src that is truthy, starts with "http" and does not end
with ".jpg"; otherwise null. -/
def fallbackPoster : List (Option ImgEl) → Option (List Char)
  | [] => none
  | none :: rest => fallbackPoster rest
  | some img :: rest =>
    if !img.src.isEmpty && startsWithL ("http".data) img.src &&
        !endsWithL (".jpg".data) img.src then
      some img.src
    else fallbackPoster rest

/-! ### Helper lemmas -/

/-- A list with the "http" usage of startsWithL is non-empty. -/
theorem startsWithL_http_ne_nil {s : List Char}
    (h : startsWithL ("http".data) s = true) : s.isEmpty = false := by
  cases hs : s with
  | nil => rw [hs] at h; exact absurd h (by decide)
  | cons c cs => rfl

/-- A list starting with "tt" is non-empty. -/
theorem startsWithL_tt_ne_nil {s : List Char}
    (h : startsWithL ("tt".data) s = true) : s.isEmpty = false := by
  cases hs : s with
  | nil => rw [hs] at h; exact absurd h (by decide)
  | cons c cs => rfl

/-- A list with a non-empty trim is itself non-empty. -/
theorem jsTrim_ne_nil {s : List Char}
    (h : (jsTrim s).isEmpty = false) : s.isEmpty = false := by
  cases hs : s with
  | nil => rw [hs] at h; exact absurd h (by decide)
  | cons c cs => rfl

/-- The scraper's filter callback coincides with the specification's
retention predicate: the two truthiness tests are subsumed by the trimmed
title and the "tt" check. -/
theorem trendingValid_eq_spec (m : TrendingItem) :
    trendingValid m = specRetained m := by
  unfold trendingValid specRetained
  cases htrim : (jsTrim m.title).isEmpty with
  | true => simp [htrim]
  | false =>
    have htitle : m.title.isEmpty = false := jsTrim_ne_nil htrim
    cases hsw : startsWithL ("tt".data) m.imdbId with
    | false => simp [htrim, htitle, hsw]
    | true =>
      have hid : m.imdbId.isEmpty = false := startsWithL_tt_ne_nil hsw
      simp [htrim, htitle, hsw, hid]

/-! ### Claim theorems: C2, C5, C6, C7, C10 -/

/-- Claim C2: an item produced by the in-page evaluation is kept by
scrapeTrending's post-filter exactly when its trimmed title is non-empty
and its identifier starts with "tt"; the retained items keep their
original relative order (the output is the filter of the input by the
specification's predicate, hence membership is as claimed and the result
is a sublist of the input). -/
theorem C2_trending_filter (l : List TrendingItem) :
    validMovies l = l.filter specRetained
    ∧ (∀ m, m ∈ validMovies l ↔ m ∈ l ∧ specRetained m = true)
    ∧ List.Sublist (validMovies l) l := by
  have hfun : validMovies l = l.filter specRetained :=
    List.filter_congr (fun m _ => trendingValid_eq_spec m)
  refine ⟨hfun, ?_, ?_⟩
  · intro m; rw [hfun]; exact List.mem_filter
  · exact List.filter_sublist l

/-- Claim C5: scrapeTrending is total and maps every failure outcome to the
empty list, while the trending endpoint answers an empty-after-filter
result with HTTP 500, success false, and one of the two "no … trending
movies" messages instead of an empty success payload. -/
theorem C5_trending_error_policy (outcome : Except (List Char) (List TrendingItem)) :
    (∀ e, outcome = Except.error e → scrapeTrendingModel outcome = [])
    ∧ (controllerValidFilter (scrapeTrendingModel outcome) = [] →
        (scrapeTrendingMovies outcome).status = 500
        ∧ (scrapeTrendingMovies outcome).success = false
        ∧ ((scrapeTrendingMovies outcome).message
              = "No trending movies found on IMDb".data
            ∨ (scrapeTrendingMovies outcome).message
              = "No valid trending movies data found".data)) := by
  constructor
  · intro e he; subst he; rfl
  · intro hflt
    by_cases hemp : (scrapeTrendingModel outcome).isEmpty = true
    · simp [scrapeTrendingMovies, hemp]
    · have hfe : (controllerValidFilter (scrapeTrendingModel outcome)).isEmpty = true := by
        rw [hflt]; rfl
      simp [scrapeTrendingMovies, hemp, hfe]

/-- Claim C6: close() on a session whose browser is already null leaves the
state unchanged; a second close after a successful close changes nothing;
and a failing teardown is swallowed, leaving the state as it was — close
never propagates an exception (its model is error-free by type). -/
theorem C6_close_idempotent (st : ScraperState) (td : Except (List Char) Unit) :
    (st.browser = none → closeModel st td = st)
    ∧ closeModel (closeModel st (Except.ok ())) td = closeModel st (Except.ok ())
    ∧ (∀ e, closeModel st (Except.error e) = st) := by
  obtain ⟨b, p⟩ := st
  refine ⟨?_, ?_, ?_⟩
  · intro h
    have hb : b = none := h
    subst hb
    rfl
  · cases b <;> rfl
  · intro e; cases b <;> rfl

/-- Claim C7: a request with an absent or falsy imdbid is answered 400 with
error and example fields, and the scraper (hence any browser session) is
never invoked. -/
theorem C7_missing_imdbid (imdbid : Option (List Char))
    (scrapeResult : Except (List Char) (List Char))
    (h : jsTruthyStr imdbid = false) :
    (scrapeMovie imdbid scrapeResult).1.status = 400
    ∧ (scrapeMovie imdbid scrapeResult).1.error.isSome = true
    ∧ (scrapeMovie imdbid scrapeResult).1.exampleHint.isSome = true
    ∧ (scrapeMovie imdbid scrapeResult).2 = false := by
  simp [scrapeMovie, h]

/-- Witness for C7 at the concrete absent-field request. -/
theorem C7_missing_imdbid_witness :
    (scrapeMovie none (Except.ok ("d".data))).1.status = 400
    ∧ (scrapeMovie none (Except.ok ("d".data))).1.error.isSome = true
    ∧ (scrapeMovie none (Except.ok ("d".data))).1.exampleHint.isSome = true
    ∧ (scrapeMovie none (Except.ok ("d".data))).2 = false :=
  C7_missing_imdbid none (Except.ok ("d".data)) rfl

/-- Claim C10: every url produced by the exception-fallback evaluation of
scrapePoster starts with "http" and does not end with ".jpg". -/
theorem C10_fallback_no_jpg (cands : List (Option ImgEl)) (u : List Char)
    (h : fallbackPoster cands = some u) :
    startsWithL ("http".data) u = true ∧ endsWithL (".jpg".data) u = false := by
  induction cands with
  | nil => exact absurd h (by simp [fallbackPoster])
  | cons c rest ih =>
    cases c with
    | none => exact ih (by simpa [fallbackPoster] using h)
    | some img =>
      rw [fallbackPoster] at h
      by_cases hc : (!img.src.isEmpty && startsWithL ("http".data) img.src &&
          !endsWithL (".jpg".data) img.src) = true
      · rw [if_pos hc] at h
        injection h with h
        subst h
        simp only [Bool.and_eq_true, Bool.not_eq_true'] at hc
        exact ⟨hc.1.2, hc.2⟩
      · rw [if_neg hc] at h
        exact ih h

/-- Witness for C10: the fallback skips an absolute .jpg image and returns
the later .png one. -/
theorem C10_fallback_no_jpg_witness :
    startsWithL ("http".data) ("http://b.png".data) = true
    ∧ endsWithL (".jpg".data) ("http://b.png".data) = false :=
  C10_fallback_no_jpg
    [some ⟨"http://a.jpg".data⟩, some ⟨"http://b.png".data⟩]
    ("http://b.png".data) (by decide)

/-! ### C1: the srcset branch of scrapePoster -/

/-- Membership through stable insertion. -/
theorem mem_insertSorted {e x : SrcEntry} {l : List SrcEntry}
    (h : e ∈ insertSorted x l) : e = x ∨ e ∈ l := by
  induction l with
  | nil => simpa [insertSorted] using h
  | cons y ys ih =>
    rw [insertSorted] at h
    by_cases hc : jsCompareWidth x y ≤ 0
    · rw [if_pos hc] at h
      rcases List.mem_cons.mp h with h | h
      · exact Or.inl h
      · exact Or.inr h
    · rw [if_neg hc] at h
      rcases List.mem_cons.mp h with h | h
      · exact Or.inr (h ▸ List.mem_cons_self y ys)
      · rcases ih h with h | h
        · exact Or.inl h
        · exact Or.inr (List.mem_cons_of_mem y h)

/-- Membership through the stable sort. -/
theorem mem_sortEntries {e : SrcEntry} : ∀ {l : List SrcEntry},
    e ∈ sortEntries l → e ∈ l := by
  intro l
  induction l with
  | nil => intro h; simp [sortEntries] at h
  | cons x xs ih =>
    intro h
    rw [sortEntries] at h
    rcases mem_insertSorted h with h | h
    · exact h ▸ List.mem_cons_self x xs
    · exact List.mem_cons_of_mem x (ih h)

/-- When no width is NaN, the head of the stable descending sort is the
first entry attaining the maximum width. -/
theorem sortEntries_head_firstMax : ∀ (l : List SrcEntry),
    (∀ e ∈ l, e.width.isSome = true) → (sortEntries l).head? = firstMax l := by
  intro l
  induction l with
  | nil => intro _; rfl
  | cons x xs ih =>
    intro hall
    have hx : x.width.isSome = true := hall x (List.mem_cons_self x xs)
    have hall2 : ∀ e ∈ xs, e.width.isSome = true :=
      fun e he => hall e (List.mem_cons_of_mem x he)
    have ih2 := ih hall2
    rw [sortEntries, firstMax]
    cases hs : sortEntries xs with
    | nil =>
      rw [hs] at ih2
      rw [← ih2]
      rfl
    | cons y ys =>
      rw [hs] at ih2
      have ih3 : firstMax xs = some y := ih2.symm
      rw [ih3]
      have hy : y.width.isSome = true :=
        hall2 y (mem_sortEntries (hs ▸ List.mem_cons_self y ys))
      obtain ⟨wx, hwx⟩ := Option.isSome_iff_exists.mp hx
      obtain ⟨wy, hwy⟩ := Option.isSome_iff_exists.mp hy
      have hcmp : jsCompareWidth x y = wy - wx := by
        rw [jsCompareWidth, hwy, hwx]
      show (insertSorted x (y :: ys)).head?
        = if entryW x < entryW y then some y else some x
      rw [insertSorted, hcmp]
      by_cases hle : wy - wx ≤ 0
      · rw [if_pos hle]
        have hnot : ¬ entryW x < entryW y := by
          rw [entryW, entryW, hwx, hwy]
          simp only [Option.getD_some]
          omega
        rw [if_neg hnot]
        rfl
      · rw [if_neg hle]
        have hlt : entryW x < entryW y := by
          rw [entryW, entryW, hwx, hwy]
          simp only [Option.getD_some]
          omega
        rw [if_pos hlt]
        rfl

/-- Counterexample for claim C1 as stated: this srcset contains an
absolute-URL entry with a positive width (http://b at 100w), yet the srcset
branch returns nothing, because the widest entry is the non-absolute
ftp://a and its URL fails the startsWith("http") guard. -/
theorem C1_srcset_counterexample :
    parseSrcset ("ftp://a 900w,http://b 100w".data)
      = [⟨"ftp://a".data, some 900⟩, ⟨"http://b".data, some 100⟩]
    ∧ posterFromSrcset ("ftp://a 900w,http://b 100w".data) = none :=
  ⟨by decide, by decide⟩

/-- Claim C1, amended: when no width descriptor parses to NaN and the FIRST
entry attaining the maximum width itself has a positive width and an
absolute URL, the srcset branch returns that entry's URL (ties resolve to
the first maximum, by stability of the sort). -/
theorem C1_srcset_max_width (s : List Char)
    (hall : ∀ e ∈ parseSrcset s, e.width.isSome = true)
    (m : SrcEntry) (hm : firstMax (parseSrcset s) = some m)
    (hpos : widthPos m.width = true)
    (hhttp : startsWithL ("http".data) m.url = true) :
    posterFromSrcset s = some m.url := by
  have hhead : (sortEntries (parseSrcset s)).head? = some m :=
    (sortEntries_head_firstMax _ hall).trans hm
  have hne : m.url.isEmpty = false := startsWithL_http_ne_nil hhttp
  rw [posterFromSrcset, hhead]
  simp [hpos, hne, hhttp]

/-- Witness for the amended C1 at a concrete two-entry srcset. -/
theorem C1_srcset_max_width_witness :
    posterFromSrcset ("http://a 100w,http://b 200w".data)
      = some ("http://b".data) :=
  C1_srcset_max_width ("http://a 100w,http://b 200w".data) (by decide)
    ⟨"http://b".data, some 200⟩ (by decide) (by decide) (by decide)

/-! ### C3: deduplication in scrapeVideoSources -/

/-- A successful findIndex pinpoints the first position carrying the src. -/
theorem findIdxSrc_some (u : List Char) : ∀ (l : List VideoSource) (i : Nat),
    findIdxSrc u l = some i →
    ∃ x, l.get? i = some x ∧ x.src = u
      ∧ ∀ j y, j < i → l.get? j = some y → y.src ≠ u := by
  intro l
  induction l with
  | nil => intro i h; simp [findIdxSrc] at h
  | cons a l ih =>
    intro i h
    rw [findIdxSrc] at h
    by_cases ha : a.src = u
    · rw [if_pos ha] at h
      injection h with h
      subst h
      refine ⟨a, List.get?_cons_zero, ha, ?_⟩
      intro j y hj _
      exact absurd hj (Nat.not_lt_zero j)
    · rw [if_neg ha] at h
      cases hf : findIdxSrc u l with
      | none => rw [hf] at h; simp at h
      | some i0 =>
        rw [hf] at h
        simp only [Option.map_some'] at h
        injection h with h
        subst h
        obtain ⟨x, hx1, hx2, hx3⟩ := ih i0 hf
        refine ⟨x, ?_, hx2, ?_⟩
        · rw [List.get?_cons_succ]; exact hx1
        · intro j y hj hy
          cases j with
          | zero =>
            rw [List.get?_cons_zero] at hy
            injection hy with hy
            rw [← hy]
            exact ha
          | succ j0 =>
            rw [List.get?_cons_succ] at hy
            exact hx3 j0 y (by omega) hy

/-- An element carrying a src guarantees findIndex succeeds, no later than
at that element's position. -/
theorem findIdxSrc_le_of_get (u : List Char) : ∀ (l : List VideoSource)
    (i : Nat) (x : VideoSource), l.get? i = some x → x.src = u →
    ∃ j, j ≤ i ∧ findIdxSrc u l = some j := by
  intro l
  induction l with
  | nil => intro i x h; simp at h
  | cons a l ih =>
    intro i x h hx
    by_cases ha : a.src = u
    · exact ⟨0, Nat.zero_le i, by rw [findIdxSrc, if_pos ha]⟩
    · cases i with
      | zero =>
        rw [List.get?_cons_zero] at h
        injection h with h
        rw [h] at ha
        exact absurd hx ha
      | succ i0 =>
        rw [List.get?_cons_succ] at h
        obtain ⟨j, hj, hf⟩ := ih i0 x h hx
        refine ⟨j + 1, by omega, ?_⟩
        rw [findIdxSrc, if_neg ha, hf]
        rfl

/-- Shifting the position bookkeeping by one. -/
theorem shiftGet {self : List VideoSource} {x : VideoSource}
    {xs : List VideoSource} {i : Nat}
    (hget : ∀ k, (x :: xs).get? k = self.get? (i + k)) :
    ∀ k, xs.get? k = self.get? (i + 1 + k) := by
  intro k
  have h := hget (k + 1)
  rw [List.get?_cons_succ] at h
  rw [show i + 1 + k = i + (k + 1) by omega]
  exact h

/-- Every element kept by the indexed filter sits at the first position of
its src in the whole array. -/
theorem uniqueAux_mem_firstIdx (self : List VideoSource) :
    ∀ (xs : List VideoSource) (i : Nat),
    (∀ k, xs.get? k = self.get? (i + k)) →
    ∀ t ∈ uniqueAux self i xs,
      ∃ j, i ≤ j ∧ findIdxSrc t.src self = some j ∧ self.get? j = some t := by
  intro xs
  induction xs with
  | nil => intro i _ t ht; simp [uniqueAux] at ht
  | cons x xs ih =>
    intro i hget t ht
    have hget2 := shiftGet hget
    rw [uniqueAux] at ht
    by_cases hc : findIdxSrc x.src self = some i
    · rw [if_pos hc] at ht
      rcases List.mem_cons.mp ht with rfl | ht2
      · refine ⟨i, Nat.le_refl i, hc, ?_⟩
        have h0 := hget 0
        rw [List.get?_cons_zero, Nat.add_zero] at h0
        exact h0.symm
      · obtain ⟨j, hj, h1, h2⟩ := ih (i + 1) hget2 t ht2
        exact ⟨j, by omega, h1, h2⟩
    · rw [if_neg hc] at ht
      obtain ⟨j, hj, h1, h2⟩ := ih (i + 1) hget2 t ht
      exact ⟨j, by omega, h1, h2⟩

/-- The kept elements have pairwise distinct srcs. -/
theorem uniqueAux_pairwise (self : List VideoSource) :
    ∀ (xs : List VideoSource) (i : Nat),
    (∀ k, xs.get? k = self.get? (i + k)) →
    (uniqueAux self i xs).Pairwise (fun a b => a.src ≠ b.src) := by
  intro xs
  induction xs with
  | nil => intro i _; simp [uniqueAux]
  | cons x xs ih =>
    intro i hget
    have hget2 := shiftGet hget
    rw [uniqueAux]
    by_cases hc : findIdxSrc x.src self = some i
    · rw [if_pos hc]
      refine List.Pairwise.cons ?_ (ih (i + 1) hget2)
      intro t ht hsrc
      obtain ⟨j, hj, h1, _⟩ := uniqueAux_mem_firstIdx self xs (i + 1) hget2 t ht
      rw [← hsrc, hc] at h1
      injection h1 with h1
      omega
    · rw [if_neg hc]
      exact ih (i + 1) hget2

/-- The kept elements form a sublist of the walked segment. -/
theorem uniqueAux_sublist (self : List VideoSource) :
    ∀ (xs : List VideoSource) (i : Nat),
    List.Sublist (uniqueAux self i xs) xs := by
  intro xs
  induction xs with
  | nil => intro i; simp [uniqueAux]
  | cons x xs ih =>
    intro i
    rw [uniqueAux]
    by_cases hc : findIdxSrc x.src self = some i
    · rw [if_pos hc]; exact List.Sublist.cons₂ x (ih (i + 1))
    · rw [if_neg hc]; exact List.Sublist.cons x (ih (i + 1))

/-- Every src whose first position lies in the walked segment is
represented among the kept elements. -/
theorem uniqueAux_complete (self : List VideoSource) :
    ∀ (xs : List VideoSource) (i : Nat),
    (∀ k, xs.get? k = self.get? (i + k)) →
    self.length = i + xs.length →
    ∀ u j, findIdxSrc u self = some j → i ≤ j →
    ∃ t ∈ uniqueAux self i xs, t.src = u := by
  intro xs
  induction xs with
  | nil =>
    intro i _ hlen u j hf hij
    obtain ⟨x, hx, _, _⟩ := findIdxSrc_some u self j hf
    have hjl : j < self.length := by
      obtain ⟨hlt, _⟩ := List.get?_eq_some.mp hx
      exact hlt
    rw [hlen, List.length_nil] at hjl
    omega
  | cons x xs ih =>
    intro i hget hlen u j hf hij
    have hget2 := shiftGet hget
    have hlen2 : self.length = (i + 1) + xs.length := by
      rw [hlen, List.length_cons]; omega
    by_cases hij2 : i = j
    · subst hij2
      obtain ⟨y, hy, hysrc, _⟩ := findIdxSrc_some u self i hf
      have hx0 : self.get? i = some x := by
        have h0 := hget 0
        rw [List.get?_cons_zero, Nat.add_zero] at h0
        exact h0.symm
      rw [hx0] at hy
      injection hy with hy
      have hxsrc : x.src = u := by rw [hy]; exact hysrc
      have hcond : findIdxSrc x.src self = some i := by rw [hxsrc]; exact hf
      rw [uniqueAux, if_pos hcond]
      exact ⟨x, List.mem_cons_self x _, hxsrc⟩
    · obtain ⟨t, ht, hts⟩ :=
        ih (i + 1) hget2 hlen2 u j hf (by omega)
      rw [uniqueAux]
      by_cases hc : findIdxSrc x.src self = some i
      · rw [if_pos hc]
        exact ⟨t, List.mem_cons_of_mem x ht, hts⟩
      · rw [if_neg hc]
        exact ⟨t, ht, hts⟩

/-- The four properties of the dedup step for an arbitrary array. -/
theorem uniqueSources_spec (l : List VideoSource) :
    (uniqueSources l).Pairwise (fun a b => a.src ≠ b.src)
    ∧ (∀ t ∈ uniqueSources l,
        ∃ j, findIdxSrc t.src l = some j ∧ l.get? j = some t)
    ∧ List.Sublist (uniqueSources l) l
    ∧ (∀ s ∈ l, ∃ t ∈ uniqueSources l, t.src = s.src) := by
  have hget : ∀ k, l.get? k = l.get? (0 + k) := by
    intro k; rw [Nat.zero_add]
  have hlen : l.length = 0 + l.length := (Nat.zero_add _).symm
  refine ⟨uniqueAux_pairwise l l 0 hget, ?_, uniqueAux_sublist l l 0, ?_⟩
  · intro t ht
    obtain ⟨j, _, h1, h2⟩ := uniqueAux_mem_firstIdx l l 0 hget t ht
    exact ⟨j, h1, h2⟩
  · intro s hs
    obtain ⟨n, hn⟩ := List.mem_iff_get?.mp hs
    obtain ⟨j, _, hf⟩ := findIdxSrc_le_of_get s.src l n s hn rfl
    exact uniqueAux_complete l l 0 hget hlen s.src j hf (Nat.zero_le j)

/-- Claim C3: over the concatenation of the native and player-library
collections, the dedup step of scrapeVideoSources yields pairwise distinct
src URLs, each kept entry is the array's first occurrence of its src, the
order is the first-occurrence (sublist) order, and every collected src is
represented. -/
theorem C3_dedup_first_occurrence (videoSources imdbVideoSources : List VideoSource) :
    (uniqueSources (videoSources ++ imdbVideoSources)).Pairwise
        (fun a b => a.src ≠ b.src)
    ∧ (∀ t ∈ uniqueSources (videoSources ++ imdbVideoSources),
        ∃ j, findIdxSrc t.src (videoSources ++ imdbVideoSources) = some j
          ∧ (videoSources ++ imdbVideoSources).get? j = some t)
    ∧ List.Sublist (uniqueSources (videoSources ++ imdbVideoSources))
        (videoSources ++ imdbVideoSources)
    ∧ (∀ s ∈ videoSources ++ imdbVideoSources,
        ∃ t ∈ uniqueSources (videoSources ++ imdbVideoSources), t.src = s.src) :=
  uniqueSources_spec (videoSources ++ imdbVideoSources)

/-! ### C4: scrapeWithRetry -/

/-- When every attempt in the front segment fails and the final attempt
fails with e, the loop returns e as the surfaced error and waits
2 ^ attempt * 1000 milliseconds after each non-final failed attempt. -/
theorem retryLoop_concat_fail (fetch : Nat → Except (List Char) (List Char)) :
    ∀ (l : List Nat) (a : Nat) (e0 : Option (List Char)) (e : List Char),
    (∀ b ∈ l, ∃ e2, fetch b = Except.error e2) →
    fetch a = Except.error e →
    retryLoop fetch (l ++ [a]) e0
      = (Except.error (some e), l.map (fun k => 2 ^ k * 1000)) := by
  intro l
  induction l with
  | nil =>
    intro a e0 e _ ha
    simp [retryLoop, ha]
  | cons b l ih =>
    intro a e0 e hl ha
    obtain ⟨eb, heb⟩ := hl b (List.mem_cons_self b l)
    have hl2 : ∀ c ∈ l, ∃ e2, fetch c = Except.error e2 :=
      fun c hc => hl c (List.mem_cons_of_mem b hc)
    have hne : (l ++ [a]).isEmpty = false := by simp
    rw [List.cons_append, retryLoop, heb]
    simp only [hne, Bool.false_eq_true, if_false, ih a (some eb) e hl2 ha,
      List.map_cons]

/-- When the attempts in the front segment fail and attempt j succeeds with
v, the loop stops at j with the delays of the preceding failures only. -/
theorem retryLoop_first_ok (fetch : Nat → Except (List Char) (List Char)) :
    ∀ (l : List Nat) (j : Nat) (l2 : List Nat) (v : List Char)
    (e0 : Option (List Char)),
    (∀ b ∈ l, ∃ e2, fetch b = Except.error e2) →
    fetch j = Except.ok v →
    retryLoop fetch (l ++ j :: l2) e0
      = (Except.ok v, l.map (fun k => 2 ^ k * 1000)) := by
  intro l
  induction l with
  | nil =>
    intro j l2 v e0 _ hj
    simp [retryLoop, hj]
  | cons b l ih =>
    intro j l2 v e0 hl hj
    obtain ⟨eb, heb⟩ := hl b (List.mem_cons_self b l)
    have hl2 : ∀ c ∈ l, ∃ e2, fetch c = Except.error e2 :=
      fun c hc => hl c (List.mem_cons_of_mem b hc)
    have hne : (l ++ j :: l2).isEmpty = false := by simp
    rw [List.cons_append, retryLoop, heb]
    simp only [hne, Bool.false_eq_true, if_false, ih j l2 v (some eb) hl2 hj,
      List.map_cons]

/-- Counterexample for claim C4 as stated: with two all-failing attempts the
single wait is 2000 ms = 2 x 1000 ms, where the claimed schedule
1x, 2x, 4x, ... seconds would begin with 1000 ms. -/
theorem C4_retry_counterexample :
    scrapeWithRetry
        (fun k => Except.error (if k = 1 then "e1".data else "e2".data)) 2
      = (Except.error (some ("e2".data)), [2000])
    ∧ (2000 : Nat) ≠ 1000 :=
  ⟨rfl, by decide⟩

/-- Claim C4, amended: scrapeWithRetry performs up to N attempts; after the
k-th failed attempt (k < N) it waits 2 ^ k seconds — the schedule
2x, 4x, 8x, ... of the 1000 ms base; if all N attempts fail it surfaces
the error of the last attempt, and a first success at attempt j stops the
loop with only the j - 1 preceding delays. -/
theorem C4_retry_schedule (fetch : Nat → Except (List Char) (List Char))
    (N : Nat) (hN : 1 ≤ N) :
    (∀ e, (∀ k, 1 ≤ k → k < N → ∃ e2, fetch k = Except.error e2) →
      fetch N = Except.error e →
      scrapeWithRetry fetch N
        = (Except.error (some e),
            (List.range' 1 (N - 1)).map (fun k => 2 ^ k * 1000)))
    ∧ (∀ j v, 1 ≤ j → j ≤ N →
        (∀ k, 1 ≤ k → k < j → ∃ e2, fetch k = Except.error e2) →
        fetch j = Except.ok v →
        scrapeWithRetry fetch N
          = (Except.ok v,
              (List.range' 1 (j - 1)).map (fun k => 2 ^ k * 1000))) := by
  constructor
  · intro e hfail hN2
    obtain ⟨n, rfl⟩ : ∃ n, N = n + 1 := ⟨N - 1, by omega⟩
    have hsplit : List.range' 1 (n + 1) = List.range' 1 n ++ [1 + 1 * n] :=
      List.range'_concat 1 n
    have hfrontfail : ∀ b ∈ List.range' 1 n, ∃ e2, fetch b = Except.error e2 := by
      intro b hb
      obtain ⟨i, hi, rfl⟩ := List.mem_range'.mp hb
      exact hfail (1 + 1 * i) (by omega) (by omega)
    have hlast : fetch (1 + 1 * n) = Except.error e := by
      rw [show 1 + 1 * n = n + 1 by omega]
      exact hN2
    rw [scrapeWithRetry, hsplit,
      retryLoop_concat_fail fetch (List.range' 1 n) (1 + 1 * n) none e
        hfrontfail hlast]
    rw [show n + 1 - 1 = n by omega]
  · intro j v hj1 hjN hfail hjok
    obtain ⟨a, rfl⟩ : ∃ a, j = a + 1 := ⟨j - 1, by omega⟩
    obtain ⟨d, hNd⟩ : ∃ d, N = (a + 1) + d := ⟨N - (a + 1), by omega⟩
    have hsplit : List.range' 1 N = List.range' 1 a ++ (a + 1) :: List.range' (a + 2) d := by
      rw [hNd, show (a + 1) + d = (d + 1) + a by omega,
        ← List.range'_append 1 a (d + 1) 1]
      rw [List.range'_succ]
      have e2 : 1 + 1 * a + 1 = a + 2 := by omega
      have e1 : 1 + 1 * a = a + 1 := by omega
      rw [e2, e1]
    have hfrontfail : ∀ b ∈ List.range' 1 a, ∃ e2, fetch b = Except.error e2 := by
      intro b hb
      obtain ⟨i, hi, rfl⟩ := List.mem_range'.mp hb
      exact hfail (1 + 1 * i) (by omega) (by omega)
    rw [scrapeWithRetry, hsplit,
      retryLoop_first_ok fetch (List.range' 1 a) (a + 1) (List.range' (a + 2) d)
        v none hfrontfail hjok]
    rw [show a + 1 - 1 = a by omega]

/-- Witness for the amended C4: two attempts, both failing, give the single
2000 ms wait and the last error. -/
theorem C4_retry_schedule_witness :
    scrapeWithRetry (fun _ => Except.error ("e".data)) 2
      = (Except.error (some ("e".data)),
          (List.range' 1 (2 - 1)).map (fun k => 2 ^ k * 1000)) :=
  (C4_retry_schedule (fun _ => Except.error ("e".data)) 2 (by decide)).1
    ("e".data) (fun k _ _ => ⟨"e".data, rfl⟩) rfl

/-! ### C8: launch strategy fallback inside one attempt -/

/-- When every strategy throws, the attempt throws the composed error. -/
theorem launchWithStrategies_all_fail :
    ∀ (ss : List (Except (List Char) Nat)),
    (∀ s ∈ ss, ∃ e, s = Except.error e) →
    launchWithStrategies ss
      = Except.error ("All browser launch strategies failed".data) := by
  intro ss
  induction ss with
  | nil => intro _; rfl
  | cons s rest ih =>
    intro h
    obtain ⟨e, he⟩ := h s (List.mem_cons_self s rest)
    subst he
    rw [launchWithStrategies]
    exact ih (fun s2 hs2 => h s2 (List.mem_cons_of_mem (Except.error e) hs2))

/-- Claim C8: within one attempt the strategies are tried in order and the
first success supplies the browser: with strategies 1 and 2 throwing and
strategy 3 succeeding (and a successful page open and direct navigation),
the whole retry loop finishes in exactly one attempt using strategy 3's
browser; and an attempt fails on launching only when every strategy fails. -/
theorem C8_strategy_fallback (envs : Nat → AttemptEnv) (st : ScraperState)
    (maxRetries : Nat) (hN : 1 ≤ maxRetries) (e1 e2 : List Char) (b p : Nat)
    (hs : (envs 1).strategies = [Except.error e1, Except.error e2, Except.ok b])
    (hp : (envs 1).newPage = Except.ok p)
    (hnav : (envs 1).navDirect = Except.ok ()) :
    launchWithStrategies (envs 1).strategies = Except.ok b
    ∧ startWithRetryModel envs st maxRetries
        = (({ browser := some b, page := some p } : ScraperState), Except.ok (), 1)
    ∧ (∀ ss, (∀ s ∈ ss, ∃ e, s = Except.error e) →
        launchWithStrategies ss
          = Except.error ("All browser launch strategies failed".data)) := by
  have hlaunch : launchWithStrategies (envs 1).strategies = Except.ok b := by
    rw [hs]; rfl
  have hrun : runAttempt st (envs 1)
      = (({ browser := some b, page := some p } : ScraperState), Except.ok ()) := by
    rw [runAttempt, hlaunch, hp, hnav]
  refine ⟨hlaunch, ?_, fun ss h => launchWithStrategies_all_fail ss h⟩
  obtain ⟨n, rfl⟩ : ∃ n, maxRetries = n + 1 := ⟨maxRetries - 1, by omega⟩
  rw [startWithRetryModel, List.range'_succ]
  simp only [startWithRetryLoop]
  rw [hrun]

/-- Witness for C8 at a concrete environment. -/
theorem C8_strategy_fallback_witness :
    startWithRetryModel
        (fun _ => ⟨[Except.error ("x".data), Except.error ("y".data), Except.ok 7],
          Except.ok 3, Except.ok (), Except.ok (), Except.ok ()⟩)
        ⟨none, none⟩ 3
      = (({ browser := some 7, page := some 3 } : ScraperState), Except.ok (), 1) :=
  (C8_strategy_fallback
    (fun _ => ⟨[Except.error ("x".data), Except.error ("y".data), Except.ok 7],
      Except.ok 3, Except.ok (), Except.ok (), Except.ok ()⟩)
    ⟨none, none⟩ 3 (by decide) ("x".data) ("y".data) 7 3 rfl rfl rfl).2.1

/-! ### C9: the page-implies-browser invariant -/

/-- close() preserves the invariant. -/
theorem scraperInv_close (st : ScraperState) (td : Except (List Char) Unit)
    (h : scraperInv st) : scraperInv (closeModel st td) := by
  obtain ⟨b, p⟩ := st
  cases b with
  | none => exact h
  | some b0 =>
    cases td with
    | error e => exact h
    | ok u => exact fun hp => Bool.noConfusion hp

/-- One attempt of startWithRetry preserves the invariant: the browser
field is assigned before the page field. -/
theorem scraperInv_runAttempt (st : ScraperState) (env : AttemptEnv)
    (h : scraperInv st) : scraperInv (runAttempt st env).1 := by
  unfold runAttempt
  split
  · exact h
  · split
    · exact fun _ => rfl
    · split
      · exact fun _ => rfl
      · split
        · exact fun _ => rfl
        · exact fun _ => rfl

/-- start() preserves the invariant on every exit path. -/
theorem scraperInv_startModel (st : ScraperState)
    (l1 l2 : Except (List Char) Nat) (np : Except (List Char) Nat)
    (nav : Except (List Char) Unit) (td : Except (List Char) Unit)
    (h : scraperInv st) : scraperInv (startModel st l1 l2 np nav td).1 := by
  unfold startModel
  split
  · exact scraperInv_close _ _ h
  · split
    · exact scraperInv_close _ _ (fun _ => rfl)
    · split
      · exact scraperInv_close _ _ (fun _ => rfl)
      · exact fun _ => rfl

/-- The retry loop preserves the invariant from any starting state. -/
theorem scraperInv_loop (envs : Nat → AttemptEnv) :
    ∀ (l : List Nat) (st : ScraperState), scraperInv st →
    scraperInv (startWithRetryLoop envs st l).1 := by
  intro l
  induction l with
  | nil => intro st h; exact h
  | cons a rest ih =>
    intro st h
    have hrun := scraperInv_runAttempt st (envs a) h
    cases hr : runAttempt st (envs a) with
    | mk st2 res =>
      rw [hr] at hrun
      cases res with
      | ok u =>
        simp only [startWithRetryLoop]
        rw [hr]
        exact hrun
      | error e =>
        simp only [startWithRetryLoop]
        rw [hr]
        exact ih (closeModel st2 (envs a).teardown)
          (scraperInv_close st2 (envs a).teardown hrun)

/-- Claim C9: the invariant "page non-null implies browser non-null" holds
of the initial state and is preserved by close(), start() and
startWithRetry() from any state satisfying it. -/
theorem C9_page_browser_invariant (st : ScraperState) (h : scraperInv st) :
    scraperInv ({ browser := none, page := none } : ScraperState)
    ∧ (∀ td, scraperInv (closeModel st td))
    ∧ (∀ l1 l2 np nav td, scraperInv (startModel st l1 l2 np nav td).1)
    ∧ (∀ envs maxRetries, scraperInv (startWithRetryModel envs st maxRetries).1) :=
  ⟨fun hp => Bool.noConfusion hp,
   fun td => scraperInv_close st td h,
   fun l1 l2 np nav td => scraperInv_startModel st l1 l2 np nav td h,
   fun envs maxRetries => scraperInv_loop envs (List.range' 1 maxRetries) st h⟩

/-- Witness for C9 at the freshly constructed (all-null) state. -/
theorem C9_page_browser_invariant_witness :
    scraperInv (closeModel ⟨none, none⟩ (Except.ok ())) :=
  (C9_page_browser_invariant ⟨none, none⟩
    (fun hp => Bool.noConfusion hp)).2.1 (Except.ok ())
